import Mathlib

/-!
Verification development for the html-layout-parser repository.

Shallow embedding of the core components (FontMetricsCache,
MultiFontManager, JsonSerializer) from src/src, together with theorems
settling the specification claims.

Modelling conventions:
* `std::map<K, V>` is embedded as a key-sorted association list
  (`mapInsert` keeps keys strictly ascending, mirroring iteration order).
* Machine integers (`int`, `size_t`, `uint32_t`, `uint64_t`) are embedded
  as `Int`/`Nat`; reductions modulo `2 ^ w` are written explicitly where
  the C++ code casts (see `FontMetricsCache.makeKey`).
* FreeType is the external collaborator: a parsed `FT_Face` is embedded
  as a `Face` record of pure query functions (glyph index, size switch
  success, glyph load success, advance metrics), and `FT_New_Memory_Face`
  as the environment function `FTEnv.parseFace`.
* C++ `float` fields (`thickness`, `opacity`, `letterSpacing`,
  `wordSpacing`, transform entries) are carried as integer-valued data;
  the embedded code never computes with them, it only stores, compares
  (or, for `thickness`, pointedly does not compare) and prints them.
-/

set_option maxRecDepth 8192

namespace HtmlLayoutParser

/-- Lookup in a key-sorted association list (std::map::find). -/
def mapLookup {κ α : Type} [DecidableEq κ] (k : κ) : List (κ × α) → Option α
  | [] => none
  | (k', v) :: rest => if k = k' then some v else mapLookup k rest

/-- Insertion into a key-sorted association list (std::map::operator[] +
assignment): replaces the value when the key is present, otherwise inserts
at the sorted position. -/
def mapInsert {κ α : Type} [LinearOrder κ] (k : κ) (v : α) :
    List (κ × α) → List (κ × α)
  | [] => [(k, v)]
  | (k', v') :: rest =>
    if k < k' then (k, v) :: (k', v') :: rest
    else if k = k' then (k, v) :: rest
    else (k', v') :: mapInsert k v rest

/-- Removal from an association list (std::map::erase by key). -/
def mapErase {κ α : Type} [DecidableEq κ] (k : κ) : List (κ × α) → List (κ × α)
  | [] => []
  | (k', v') :: rest => if k = k' then rest else (k', v') :: mapErase k rest

theorem mapLookup_mapInsert_self {κ α : Type} [LinearOrder κ] (k : κ) (v : α)
    (l : List (κ × α)) : mapLookup k (mapInsert k v l) = some v := by
  induction l with
  | nil => simp [mapInsert, mapLookup]
  | cons hd tl ih =>
    obtain ⟨k', v'⟩ := hd
    by_cases h1 : k < k'
    · simp [mapInsert, h1, mapLookup]
    · by_cases h2 : k = k'
      · simp [mapInsert, h1, h2, mapLookup]
      · simp [mapInsert, h1, h2, mapLookup, ih]

theorem mapLookup_mapInsert_ne {κ α : Type} [LinearOrder κ] (k k' : κ) (v : α)
    (l : List (κ × α)) (h : k' ≠ k) :
    mapLookup k' (mapInsert k v l) = mapLookup k' l := by
  induction l with
  | nil => simp [mapInsert, mapLookup, h]
  | cons hd tl ih =>
    obtain ⟨k0, v0⟩ := hd
    by_cases h1 : k < k0
    · simp [mapInsert, h1, mapLookup, h]
    · by_cases h2 : k = k0
      · subst h2
        simp [mapInsert, h1, mapLookup, h]
      · by_cases h3 : k' = k0
        · simp [mapInsert, h1, h2, mapLookup, h3]
        · simp [mapInsert, h1, h2, mapLookup, h3, ih]

theorem mapLookup_mapErase_self {κ α : Type} [DecidableEq κ] (k : κ)
    (l : List (κ × α)) (hnd : ∀ p ∈ l, p.1 = k → False) :
    mapLookup k (mapErase k l) = none := by
  induction l with
  | nil => simp [mapErase, mapLookup]
  | cons hd tl ih =>
    obtain ⟨k0, v0⟩ := hd
    by_cases h : k = k0
    · exact (hnd (k0, v0) (by simp) h.symm).elim
    · simp only [mapErase, if_neg h, mapLookup, if_neg h]
      exact ih (fun p hp hpk => hnd p (by simp [hp]) hpk)

theorem mapLookup_mapErase_ne {κ α : Type} [DecidableEq κ] (k k' : κ)
    (l : List (κ × α)) (h : k' ≠ k) :
    mapLookup k' (mapErase k l) = mapLookup k' l := by
  induction l with
  | nil => simp [mapErase, mapLookup]
  | cons hd tl ih =>
    obtain ⟨k0, v0⟩ := hd
    by_cases h1 : k = k0
    · subst h1
      simp [mapErase, mapLookup, h]
    · by_cases h2 : k' = k0
      · simp [mapErase, h1, mapLookup, h2]
      · simp [mapErase, h1, mapLookup, h2, ih]

theorem mapErase_mapInsert_fresh {κ α : Type} [LinearOrder κ] (k : κ) (v : α)
    (l : List (κ × α)) (hfresh : ∀ p ∈ l, p.1 ≠ k) :
    mapErase k (mapInsert k v l) = l := by
  induction l with
  | nil => simp [mapInsert, mapErase]
  | cons hd tl ih =>
    obtain ⟨k0, v0⟩ := hd
    have hk0 : k0 ≠ k := hfresh (k0, v0) (by simp)
    by_cases h1 : k < k0
    · simp [mapInsert, h1, mapErase, hk0.symm]
    · by_cases h2 : k = k0
      · exact absurd h2.symm hk0
      · have hne : ¬(k = k0) := fun hh => hk0 hh.symm
        simp only [mapInsert, if_neg h1, if_neg h2, mapErase, if_neg hne]
        rw [ih (fun p hp => hfresh p (by simp [hp]))]

/-! ### FontMetricsCache (src/src/font_metrics_cache.cpp) -/

/-- State of the `FontMetricsCache` singleton: the two-level map
`m_fontCaches : fontId → (makeKey fontSize codepoint → width)` plus the
`m_hits` / `m_misses` statistics counters. -/
structure FontMetricsCache where
  fontCaches : List (Int × List (Nat × Int))
  hits : Nat
  misses : Nat

/-- The freshly constructed cache (constructor: zero counters, no entries). -/
def FontMetricsCache.initial : FontMetricsCache := ⟨[], 0, 0⟩

/-- The private `makeKey`: `(uint64_t(fontSize) << 32) | codepoint` with the
truncations of the C++ casts written out (`fontSize` is `int`, `codepoint`
is `uint32_t`). -/
def FontMetricsCache.makeKey (fontSize : Int) (codepoint : Nat) : Nat :=
  (fontSize.emod (2 ^ 32)).toNat * 2 ^ 32 + codepoint % 2 ^ 32

/-- Pure two-level lookup (the data content of `getCharWidth`, without the
statistics side effect): `some w` when the key is cached, `none` otherwise. -/
def FontMetricsCache.lookupWidth (c : FontMetricsCache) (fontId : Int)
    (fontSize : Int) (codepoint : Nat) : Option Int :=
  match mapLookup fontId c.fontCaches with
  | none => none
  | some inner => mapLookup (FontMetricsCache.makeKey fontSize codepoint) inner

/-- `FontMetricsCache::getCharWidth`: returns the cached width or the `-1`
not-cached sentinel, incrementing `m_hits` on a hit and `m_misses` on either
kind of miss (font absent, or key absent in the font's inner map). -/
def FontMetricsCache.getCharWidth (c : FontMetricsCache) (fontId : Int)
    (fontSize : Int) (codepoint : Nat) : Int × FontMetricsCache :=
  match mapLookup fontId c.fontCaches with
  | none => (-1, { c with misses := c.misses + 1 })
  | some inner =>
    match mapLookup (FontMetricsCache.makeKey fontSize codepoint) inner with
    | some w => (w, { c with hits := c.hits + 1 })
    | none => (-1, { c with misses := c.misses + 1 })

/-- `FontMetricsCache::setCharWidth`:
`m_fontCaches[fontId].charWidths[key] = width` (creates the per-font inner
map when absent; touches no counter). -/
def FontMetricsCache.setCharWidth (c : FontMetricsCache) (fontId : Int)
    (fontSize : Int) (codepoint : Nat) (width : Int) : FontMetricsCache :=
  let inner := (mapLookup fontId c.fontCaches).getD []
  let inner' := mapInsert (FontMetricsCache.makeKey fontSize codepoint) width inner
  { c with fontCaches := mapInsert fontId inner' c.fontCaches }

/-- `FontMetricsCache::clearFont`: drops exactly that font's inner map. -/
def FontMetricsCache.clearFont (c : FontMetricsCache) (fontId : Int) :
    FontMetricsCache :=
  { c with fontCaches := mapErase fontId c.fontCaches }

/-- `FontMetricsCache::clearAll`. -/
def FontMetricsCache.clearAll (c : FontMetricsCache) : FontMetricsCache :=
  { c with fontCaches := [] }

/-- `FontMetricsCache::resetStats`: zeroes counters, keeps entries. -/
def FontMetricsCache.resetStats (c : FontMetricsCache) : FontMetricsCache :=
  { c with hits := 0, misses := 0 }

/-- `FontMetricsCache::getStats`: `(hits, misses, total entry count)`. -/
def FontMetricsCache.getStats (c : FontMetricsCache) : Nat × Nat × Nat :=
  (c.hits, c.misses, (c.fontCaches.map (fun p => p.2.length)).sum)

/-- One call against the cache API, for reasoning about op sequences. -/
inductive CacheOp
  | get (fontId fontSize : Int) (codepoint : Nat)
  | set (fontId fontSize : Int) (codepoint : Nat) (width : Int)
  | clearFont (fontId : Int)
  | clearAll
  | resetStats

/-- State transition of a single cache call (return values dropped). -/
def applyCacheOp (c : FontMetricsCache) : CacheOp → FontMetricsCache
  | .get fontId fontSize codepoint =>
    (c.getCharWidth fontId fontSize codepoint).2
  | .set fontId fontSize codepoint width =>
    c.setCharWidth fontId fontSize codepoint width
  | .clearFont fontId => c.clearFont fontId
  | .clearAll => c.clearAll
  | .resetStats => c.resetStats

/-- Runs a sequence of cache calls left to right. -/
def runCacheOps (c : FontMetricsCache) : List CacheOp → FontMetricsCache
  | [] => c
  | op :: rest => runCacheOps (applyCacheOp c op) rest

theorem lookupWidth_none_getCharWidth (c : FontMetricsCache)
    (fontId fontSize : Int) (codepoint : Nat)
    (h : c.lookupWidth fontId fontSize codepoint = none) :
    c.getCharWidth fontId fontSize codepoint =
      (-1, { c with misses := c.misses + 1 }) := by
  unfold FontMetricsCache.getCharWidth
  split
  · rfl
  · next inner houter =>
    unfold FontMetricsCache.lookupWidth at h
    rw [houter] at h
    simp only at h
    split
    · next w hinner => rw [hinner] at h; cases h
    · rfl

/-! ### MultiFontManager (src/src/multi_font_manager.cpp) -/

/-- A parsed FreeType face (`FT_Face`), embedded as the pure query
functions the manager code calls on it: `FT_Get_Char_Index` (0 = no
glyph), `FT_Set_Pixel_Sizes` success, `FT_Load_Glyph` success for a given
(pixel size, glyph index), the two advance metrics read after a load
(`metrics.horiAdvance >> 6` and `advance.x >> 6`), and the face's
`family_name`. -/
structure Face where
  glyphIndex : Nat → Nat
  setSizeOk : Int → Bool
  loadOk : Int → Nat → Bool
  horiAdvance : Int → Nat → Int
  advanceX : Int → Nat → Int
  familyName : Option String

/-- A registry entry (`FontEntry`): id, display name, parsed face handle,
payload byte count (the `data` vector's length; the bytes themselves are
dropped after parsing since only their count is observable), tracked
memory usage, and the last-applied pixel size. -/
structure FontEntry where
  id : Int
  name : String
  face : Option Face
  dataSize : Nat
  memoryUsage : Nat
  currentSize : Int

/-- A font instance handle record (`FontInstance`). -/
structure FontInstance where
  fontId : Int
  fontSize : Int
  bold : Bool
  italic : Bool

/-- The external engine boundary: `FT_New_Memory_Face` as a pure function
of the copied bytes, yielding the parsed face or a parse failure. -/
structure FTEnv where
  parseFace : List Nat → Option Face

/-- State of the `MultiFontManager` singleton. `libraryOk` is whether
`FT_Init_FreeType` succeeded (`m_library != nullptr`). -/
structure MultiFontManager where
  libraryOk : Bool
  fonts : List (Int × FontEntry)
  nextFontId : Int
  defaultFontId : Int
  fontInstances : List (Nat × FontInstance)
  nextFontHandle : Nat
  memoryWarningIssued : Bool

/-- The constructor's state (with FreeType initialization succeeding). -/
def MultiFontManager.initial : MultiFontManager :=
  { libraryOk := true, fonts := [], nextFontId := 1, defaultFontId := 0,
    fontInstances := [], nextFontHandle := 1, memoryWarningIssued := false }

/-- `MultiFontManager::getTotalMemoryUsage`: sum of per-entry usage. -/
def MultiFontManager.getTotalMemoryUsage (st : MultiFontManager) : Nat :=
  (st.fonts.map (fun p => p.2.memoryUsage)).sum

/-- The 50 MiB `MEMORY_WARNING_THRESHOLD`. -/
def memoryWarningThreshold : Nat := 50 * 1024 * 1024

/-- `MultiFontManager::checkMemoryThreshold`: returns whether usage exceeds
the threshold and latches the one-shot `m_memoryWarningIssued` flag. -/
def MultiFontManager.checkMemoryThreshold (st : MultiFontManager)
    (threshold : Nat) : Bool × MultiFontManager :=
  if st.getTotalMemoryUsage > threshold then
    (true, { st with memoryWarningIssued := true })
  else (false, st)

/-- `MultiFontManager::loadFont`. The caller-side `(data, size)` pair is
embedded as `Option (List Nat)` (`none` = null pointer, list length =
`size`). Validation failures and parse failures return id `0` with the
state untouched; success stores the entry under the next id, makes the
first font the default, and runs the memory-threshold check. -/
def MultiFontManager.loadFont (env : FTEnv) (st : MultiFontManager) :
    Option (List Nat) → String → Int × MultiFontManager
  | none, _ => (0, st)
  | some bytes, name =>
    if bytes.length = 0 ∨ st.libraryOk = false then (0, st)
    else
      match env.parseFace bytes with
      | none => (0, st)
      | some face =>
        let name' :=
          match face.familyName with
          | some fam => if name = "" then fam else name
          | none => name
        let fontId := st.nextFontId
        let entry : FontEntry :=
          { id := fontId, name := name', face := some face,
            dataSize := bytes.length, memoryUsage := bytes.length,
            currentSize := 0 }
        let st1 :=
          { st with fonts := mapInsert fontId entry st.fonts,
                    nextFontId := st.nextFontId + 1,
                    defaultFontId :=
                      if st.defaultFontId = 0 then fontId
                      else st.defaultFontId }
        (fontId, (st1.checkMemoryThreshold memoryWarningThreshold).2)

/-- `MultiFontManager::unloadFont`: no-op for an unknown id; otherwise
evicts the metrics cache for the id, releases the face and buffer, removes
the entry, reassigns the default (to the smallest remaining id, i.e.
`m_fonts.begin()->first`), drops the instance handles referencing the id,
and resets the memory-warning latch. -/
def MultiFontManager.unloadFont (st : MultiFontManager)
    (cache : FontMetricsCache) (fontId : Int) :
    MultiFontManager × FontMetricsCache :=
  match mapLookup fontId st.fonts with
  | none => (st, cache)
  | some _ =>
    let cache' := cache.clearFont fontId
    let fonts' := mapErase fontId st.fonts
    let default' :=
      if st.defaultFontId = fontId then
        match fonts' with
        | [] => 0
        | (k, _) :: _ => k
      else st.defaultFontId
    let instances' := st.fontInstances.filter (fun p => p.2.fontId != fontId)
    ({ st with fonts := fonts', defaultFontId := default',
               fontInstances := instances', memoryWarningIssued := false },
     cache')

/-- `MultiFontManager::setDefaultFont`: ignores unknown ids. -/
def MultiFontManager.setDefaultFont (st : MultiFontManager) (fontId : Int) :
    MultiFontManager :=
  if (mapLookup fontId st.fonts).isSome then
    { st with defaultFontId := fontId }
  else st

/-- `MultiFontManager::isFontLoaded`. -/
def MultiFontManager.isFontLoaded (st : MultiFontManager) (fontId : Int) :
    Bool :=
  (mapLookup fontId st.fonts).isSome

/-- `MultiFontManager::clearAllFonts`: releases every entry, handle, and
cached metric; resets the default and the warning latch (the id counter is
deliberately not reset). -/
def MultiFontManager.clearAllFonts (st : MultiFontManager)
    (cache : FontMetricsCache) : MultiFontManager × FontMetricsCache :=
  ({ st with fonts := [], fontInstances := [], defaultFontId := 0,
             memoryWarningIssued := false },
   cache.clearAll)

/-- `MultiFontManager::getFontMemoryUsage`. -/
def MultiFontManager.getFontMemoryUsage (st : MultiFontManager)
    (fontId : Int) : Nat :=
  match mapLookup fontId st.fonts with
  | some e => e.memoryUsage
  | none => 0

/-- ASCII whitespace per C `isspace` in the default locale. -/
def isAsciiSpace (c : Char) : Bool :=
  c = ' ' ∨ c = Char.ofNat 9 ∨ c = Char.ofNat 10 ∨ c = Char.ofNat 11 ∨
    c = Char.ofNat 12 ∨ c = Char.ofNat 13

/-- ASCII lowercasing per C `tolower` in the default locale. -/
def asciiToLower (c : Char) : Char :=
  if 65 ≤ c.toNat ∧ c.toNat ≤ 90 then Char.ofNat (c.toNat + 32) else c

/-- `MultiFontManager::normalizeFontName` on a character list: trim both
ends, then lowercase. (The C++ code walks bytes; on ASCII input the
per-character embedding coincides.) -/
def normalizeFontNameL (cs : List Char) : List Char :=
  (((cs.dropWhile isAsciiSpace).reverse.dropWhile isAsciiSpace).reverse).map
    asciiToLower

/-- `MultiFontManager::normalizeFontName`. -/
def normalizeFontName (name : String) : String :=
  ⟨normalizeFontNameL name.data⟩

/-- Loop body of `MultiFontManager::parseFontFamily`: walks the characters
with the `inQuotes`/`quoteChar`/`current`/`result` loop state; a comma
outside quotes ends a candidate (normalized, dropped when empty), quotes
toggle `inQuotes` and are not copied, everything else is appended to
`current`. -/
def parseFontFamilyGo : List Char → Bool → Char → List Char → List String →
    List String
  | [], _, _, current, result =>
    let trimmed := normalizeFontNameL current
    if trimmed ≠ [] then result ++ [⟨trimmed⟩] else result
  | c :: rest, inQuotes, quoteCh, current, result =>
    if inQuotes = false ∧ (c = Char.ofNat 34 ∨ c = Char.ofNat 39) then
      parseFontFamilyGo rest true c current result
    else if inQuotes = true ∧ c = quoteCh then
      parseFontFamilyGo rest false (Char.ofNat 0) current result
    else if inQuotes = false ∧ c = ',' then
      let trimmed := normalizeFontNameL current
      parseFontFamilyGo rest inQuotes quoteCh []
        (if trimmed ≠ [] then result ++ [⟨trimmed⟩] else result)
    else
      parseFontFamilyGo rest inQuotes quoteCh (current ++ [c]) result

/-- `MultiFontManager::parseFontFamily`. -/
def parseFontFamily (fontFamily : String) : List String :=
  parseFontFamilyGo fontFamily.data false (Char.ofNat 0) [] []

/-- `MultiFontManager::findFontByName`: first loaded font (in ascending id
order, the `std::map` iteration order) whose normalized name equals the
normalized search name; 0 when none matches. -/
def findFontByNameGo (search : String) : List (Int × FontEntry) → Int
  | [] => 0
  | (_, e) :: rest =>
    if normalizeFontName e.name = search then e.id
    else findFontByNameGo search rest

/-- `MultiFontManager::findFontByName`. -/
def MultiFontManager.findFontByName (st : MultiFontManager) (name : String) :
    Int :=
  findFontByNameGo (normalizeFontName name) st.fonts

/-- Candidate walk of `MultiFontManager::resolveFontFamily`. -/
def resolveFontFamilyGo (st : MultiFontManager) : List String → Int
  | [] => st.defaultFontId
  | n :: rest =>
    let fontId := st.findFontByName n
    if fontId ≠ 0 then fontId else resolveFontFamilyGo st rest

/-- `MultiFontManager::resolveFontFamily`: first loaded match of the parsed
family chain, else the default font id. -/
def MultiFontManager.resolveFontFamily (st : MultiFontManager)
    (fontFamily : String) : Int :=
  resolveFontFamilyGo st (parseFontFamily fontFamily)

/-- `MultiFontManager::setFontSize` (private): skips the engine call when
the entry's `currentSize` already matches, otherwise applies
`FT_Set_Pixel_Sizes` and records the new size on success. -/
def MultiFontManager.setFontSize (st : MultiFontManager) (fontId : Int)
    (fontSize : Int) : Bool × MultiFontManager :=
  match mapLookup fontId st.fonts with
  | none => (false, st)
  | some e =>
    match e.face with
    | none => (false, st)
    | some f =>
      if e.currentSize = fontSize then (true, st)
      else if f.setSizeOk fontSize then
        let fonts' := mapInsert fontId { e with currentSize := fontSize } st.fonts
        (true, { st with fonts := fonts' })
      else (false, st)

/-- The fallback-character loop of `getCharWidthWithFallback`: glyph index
of the first chain member the face contains, 0 when none does. -/
def firstGlyphIndex (f : Face) : List Nat → Nat
  | [] => 0
  | c :: rest =>
    let gi := f.glyphIndex c
    if gi ≠ 0 then gi else firstGlyphIndex f rest

/-- Advance computation after `FT_Load_Glyph`: `horiAdvance`, falling back
to `advance.x` when `horiAdvance` is 0. -/
def measureGlyph (f : Face) (fontSize : Int) (gi : Nat) : Int :=
  let hAdv := f.horiAdvance fontSize gi
  if hAdv = 0 then f.advanceX fontSize gi else hAdv

/-- Result of `getCharWidthWithFallback`: returned width, the value
written through `outUsedFontId` (`none` when the pointer is not written),
and the post-call manager and cache states. -/
structure WidthResult where
  width : Int
  usedFontId : Option Int
  mgr : MultiFontManager
  cache : FontMetricsCache

/-- Tail of `getCharWidthWithFallback` from the shared `FT_Load_Glyph`
point on: the residual `glyphIndex == 0` default, the load-failure
default, and the measure-and-cache path (caching always under the original
codepoint). -/
def finishGlyph (st : MultiFontManager) (cache : FontMetricsCache) (f : Face)
    (fontId : Int) (codepoint : Nat) (fontSize : Int) (gi : Nat) :
    WidthResult :=
  if gi = 0 then ⟨fontSize.tdiv 2, some fontId, st, cache⟩
  else if f.loadOk fontSize gi = false then
    ⟨fontSize.tdiv 2, some fontId, st, cache⟩
  else
    let finalWidth := measureGlyph f fontSize gi
    ⟨finalWidth, some fontId, st,
      cache.setCharWidth fontId fontSize codepoint finalWidth⟩

/-- `MultiFontManager::getCharWidthWithFallback`: cache consultation, then
the primary-glyph lookup, then — for an absent codepoint — the
Unicode-range classification: CJK ideograph ranges try the chain
`[U+4E2D, '0', ' ']`; CJK/fullwidth and ASCII punctuation ranges return
`fontSize / 2` directly (cached); everything else tries `['0', ' ']`. -/
def MultiFontManager.getCharWidthWithFallback (st : MultiFontManager)
    (cache : FontMetricsCache) (fontId : Int) (codepoint : Nat)
    (fontSize : Int) : WidthResult :=
  let got := cache.getCharWidth fontId fontSize codepoint
  let cachedWidth := got.1
  let cache1 := got.2
  if cachedWidth ≥ 0 then ⟨cachedWidth, some fontId, st, cache1⟩
  else
    match mapLookup fontId st.fonts with
    | none => ⟨fontSize.tdiv 2, none, st, cache1⟩
    | some entry =>
      match entry.face with
      | none => ⟨fontSize.tdiv 2, none, st, cache1⟩
      | some face =>
        let setRes := st.setFontSize fontId fontSize
        if setRes.1 = false then ⟨fontSize.tdiv 2, none, setRes.2, cache1⟩
        else
          let st1 := setRes.2
          let glyphIndex := face.glyphIndex codepoint
          if glyphIndex = 0 then
            if (0x4E00 ≤ codepoint ∧ codepoint ≤ 0x9FFF) ∨
                (0x3400 ≤ codepoint ∧ codepoint ≤ 0x4DBF) ∨
                (0x20000 ≤ codepoint ∧ codepoint ≤ 0x2A6DF) then
              -- isCJK: chain 中, '0', space
              finishGlyph st1 cache1 face fontId codepoint fontSize
                (firstGlyphIndex face [0x4E2D, 48, 32])
            else if ((0x3000 ≤ codepoint ∧ codepoint ≤ 0x303F) ∨
                  (0xFF00 ≤ codepoint ∧ codepoint ≤ 0xFFEF)) ∨
                ((0x20 ≤ codepoint ∧ codepoint ≤ 0x2F) ∨
                  (0x3A ≤ codepoint ∧ codepoint ≤ 0x40) ∨
                  (0x5B ≤ codepoint ∧ codepoint ≤ 0x60) ∨
                  (0x7B ≤ codepoint ∧ codepoint ≤ 0x7E)) then
              -- isCJKPunctuation || isLatinPunctuation: direct half width
              let halfWidth := fontSize.tdiv 2
              ⟨halfWidth, some fontId, st1,
                cache1.setCharWidth fontId fontSize codepoint halfWidth⟩
            else
              -- other characters: chain '0', space
              finishGlyph st1 cache1 face fontId codepoint fontSize
                (firstGlyphIndex face [48, 32])
          else finishGlyph st1 cache1 face fontId codepoint fontSize glyphIndex

/-- One call against the manager API, for reasoning about op sequences. -/
inductive MgrOp
  | load (data : Option (List Nat)) (name : String)
  | unload (fontId : Int)
  | clearAll
  | setDefault (fontId : Int)

/-- Runs a sequence of manager calls, collecting the ids returned by
successful loads in order. -/
def runMgrOps (env : FTEnv) (st : MultiFontManager)
    (cache : FontMetricsCache) : List MgrOp →
    MultiFontManager × FontMetricsCache × List Int
  | [] => (st, cache, [])
  | op :: rest =>
    match op with
    | .load d n =>
      let r := st.loadFont env d n
      let rec1 := runMgrOps env r.2 cache rest
      (rec1.1, rec1.2.1, if r.1 = 0 then rec1.2.2 else r.1 :: rec1.2.2)
    | .unload i =>
      let r := st.unloadFont cache i
      runMgrOps env r.1 r.2 rest
    | .clearAll =>
      let r := st.clearAllFonts cache
      runMgrOps env r.1 r.2 rest
    | .setDefault i => runMgrOps env (st.setDefaultFont i) cache rest

/-! ### JsonSerializer (src/src/json_serializer.cpp, wasm_container.h) -/

/-- `TextDecoration` (wasm_container.h). `thickness` is a C++ float,
carried here as integer-valued data (it is only stored and printed). -/
structure TextDecoration where
  underline : Bool := false
  overline : Bool := false
  lineThrough : Bool := false
  color : String := ""
  style : String := ""
  thickness : Int := 1
deriving DecidableEq

/-- `Transform` (wasm_container.h); float entries carried as integers. -/
structure Transform where
  scaleX : Int := 1
  scaleY : Int := 1
  skewX : Int := 0
  skewY : Int := 0
  rotate : Int := 0
deriving DecidableEq

/-- `CharLayout` (wasm_container.h): one positioned character record. -/
structure CharLayout where
  character : String := ""
  x : Int := 0
  y : Int := 0
  width : Int := 0
  height : Int := 0
  fontFamily : String := ""
  fontSize : Int := 16
  fontWeight : Int := 400
  fontStyle : String := ""
  color : String := ""
  backgroundColor : String := ""
  opacity : Int := 1
  textDecoration : TextDecoration := {}
  letterSpacing : Int := 0
  wordSpacing : Int := 0
  transform : Transform := {}
  baseline : Int := 0
  direction : String := ""
  fontId : Int := 0
deriving DecidableEq

/-- `Viewport` (json_serializer.h). -/
structure Viewport where
  width : Int := 0
  height : Int := 0
deriving DecidableEq

/-- `Run` (json_serializer.h): maximal same-style span of a line. -/
structure Run where
  runIndex : Nat := 0
  x : Int := 0
  fontFamily : String := ""
  fontSize : Int := 16
  fontWeight : Int := 400
  fontStyle : String := ""
  color : String := ""
  backgroundColor : String := ""
  textDecoration : TextDecoration := {}
  characters : List CharLayout := []
deriving DecidableEq

/-- `Line` (json_serializer.h). -/
structure Line where
  lineIndex : Nat := 0
  y : Int := 0
  baseline : Int := 0
  height : Int := 0
  width : Int := 0
  textAlign : String := ""
  runs : List Run := []
  characters : List CharLayout := []
deriving DecidableEq

/-- `Row` (json_serializer.h): byRow-mode grouping record. -/
structure Row where
  rowIndex : Nat := 0
  y : Int := 0
  children : List CharLayout := []
deriving DecidableEq

instance : Inhabited CharLayout := ⟨{}⟩

instance : Inhabited Run := ⟨{}⟩

instance : Inhabited Line := ⟨{}⟩

instance : Inhabited Row := ⟨{}⟩

/-- `OutputMode` (json_serializer.h). -/
inductive OutputMode
  | Full
  | Simple
  | Flat
  | ByRow
deriving DecidableEq

/-- Escape of one character inside `JsonSerializer::escapeJson`'s slow
path (the `snprintf("\\u%04x")` arm only fires for codes below 0x20, so
two fixed hex digits suffice after `00`). -/
def escapeJsonChar (c : Char) : String :=
  if c = Char.ofNat 34 then "\\\""
  else if c = Char.ofNat 92 then "\\\\"
  else if c = Char.ofNat 8 then "\\b"
  else if c = Char.ofNat 12 then "\\f"
  else if c = Char.ofNat 10 then "\\n"
  else if c = Char.ofNat 13 then "\\r"
  else if c = Char.ofNat 9 then "\\t"
  else if c.toNat < 0x20 then
    let hexDigit := fun (n : Nat) =>
      if n < 10 then Char.ofNat (48 + n) else Char.ofNat (87 + n)
    ⟨['\\', 'u', '0', '0', hexDigit (c.toNat / 16), hexDigit (c.toNat % 16)]⟩
  else ⟨[c]⟩

/-- `needsEscaping` (json_serializer.cpp helper). -/
def needsEscaping (s : String) : Bool :=
  s.data.any fun c =>
    c = Char.ofNat 34 ∨ c = Char.ofNat 92 ∨ c.toNat < 0x20

/-- `JsonSerializer::escapeJson`: identity fast path, per-character escape
slow path. -/
def escapeJson (s : String) : String :=
  if needsEscaping s then String.join (s.data.map escapeJsonChar) else s

/-- Renders a `Bool` the way the serializer prints flag fields. -/
def boolStr (b : Bool) : String := if b then "true" else "false"

/-- `JsonSerializer::serializeTextDecoration`. -/
def serializeTextDecoration (d : TextDecoration) : String :=
  "\x7b\"underline\":" ++ boolStr d.underline ++
  ",\"overline\":" ++ boolStr d.overline ++
  ",\"lineThrough\":" ++ boolStr d.lineThrough ++
  ",\"color\":\"" ++ escapeJson d.color ++
  "\",\"style\":\"" ++ escapeJson d.style ++
  "\",\"thickness\":" ++ toString d.thickness ++ "\x7d"

/-- `JsonSerializer::serializeTransform`. -/
def serializeTransform (t : Transform) : String :=
  "\x7b\"scaleX\":" ++ toString t.scaleX ++
  ",\"scaleY\":" ++ toString t.scaleY ++
  ",\"skewX\":" ++ toString t.skewX ++
  ",\"skewY\":" ++ toString t.skewY ++
  ",\"rotate\":" ++ toString t.rotate ++ "\x7d"

/-- `JsonSerializer::serializeCharLayout`. -/
def serializeCharLayout (l : CharLayout) : String :=
  "\x7b\"character\":\"" ++ escapeJson l.character ++
  "\",\"x\":" ++ toString l.x ++
  ",\"y\":" ++ toString l.y ++
  ",\"width\":" ++ toString l.width ++
  ",\"height\":" ++ toString l.height ++
  ",\"fontFamily\":\"" ++ escapeJson l.fontFamily ++
  "\",\"fontSize\":" ++ toString l.fontSize ++
  ",\"fontWeight\":" ++ toString l.fontWeight ++
  ",\"fontStyle\":\"" ++ escapeJson l.fontStyle ++
  "\",\"color\":\"" ++ escapeJson l.color ++
  "\",\"backgroundColor\":\"" ++ escapeJson l.backgroundColor ++
  "\",\"opacity\":" ++ toString l.opacity ++
  ",\"textDecoration\":" ++ serializeTextDecoration l.textDecoration ++
  ",\"letterSpacing\":" ++ toString l.letterSpacing ++
  ",\"wordSpacing\":" ++ toString l.wordSpacing ++
  ",\"transform\":" ++ serializeTransform l.transform ++
  ",\"baseline\":" ++ toString l.baseline ++
  ",\"direction\":\"" ++ escapeJson l.direction ++
  "\",\"fontId\":" ++ toString l.fontId ++ "\x7d"

/-- `JsonSerializer::serializeFlat`: input order verbatim, one object per
character. -/
def serializeFlat (layouts : List CharLayout) : String :=
  "[" ++ String.intercalate "," (layouts.map serializeCharLayout) ++ "]"

/-- The distinct `y` coordinates of the records, ascending — the iteration
order of the `std::map` keyed by `y` (and the no-op re-sort of `yCoords`). -/
def rowYs (layouts : List CharLayout) : List Int :=
  List.insertionSort (fun a b => a ≤ b) (layouts.map (fun l => l.y)).dedup

/-- The records of one row, x-sorted: the per-key vector of the grouping
map holds the records with that `y` in input order, then the serializer
sorts it with comparator `a.x < b.x` (`std::sort`; for ties the relative
order of equal-`x` records is unspecified in C++ — the embedding picks the
stable order). -/
def rowChildren (layouts : List CharLayout) (y : Int) : List CharLayout :=
  List.insertionSort (fun a b => a.x ≤ b.x)
    (layouts.filter (fun l => l.y == y))

/-- Row construction loop of `JsonSerializer::serializeByRow` (`rowIndex`
counts from the given start). -/
def rowsFromYs (layouts : List CharLayout) : Nat → List Int → List Row
  | _, [] => []
  | i, y :: rest =>
    { rowIndex := i, y := y, children := rowChildren layouts y } ::
      rowsFromYs layouts (i + 1) rest

/-- The row structure emitted by `JsonSerializer::serializeByRow`. -/
def byRowRows (layouts : List CharLayout) : List Row :=
  rowsFromYs layouts 0 (rowYs layouts)

/-- JSON text of one row object in byRow mode. -/
def serializeRow (r : Row) : String :=
  "\x7b\"rowIndex\":" ++ toString r.rowIndex ++
  ",\"y\":" ++ toString r.y ++
  ",\"children\":[" ++
  String.intercalate "," (r.children.map serializeCharLayout) ++ "]\x7d"

/-- `JsonSerializer::serializeByRow`. -/
def serializeByRow (layouts : List CharLayout) : String :=
  "[" ++ String.intercalate "," ((byRowRows layouts).map serializeRow) ++ "]"

/-- Per-line maxima of `groupIntoLines`: running maximum starting at 0,
exactly as the C++ `if (v > acc) acc = v` loop computes it. -/
def foldMax (f : CharLayout → Int) (chars : List CharLayout) : Int :=
  chars.foldl (fun acc ch => if f ch > acc then f ch else acc) 0

/-- Line construction loop of `JsonSerializer::groupIntoLines`: one `Line`
per distinct `y`, characters x-sorted, `height`/`baseline` the running
maxima, `width` the rightmost right edge minus the first (leftmost)
character's `x`, placeholder left alignment. -/
def linesFromYs (layouts : List CharLayout) : Nat → List Int → List Line
  | _, [] => []
  | i, y :: rest =>
    let chars := rowChildren layouts y
    let line : Line :=
      match chars with
      | [] => { lineIndex := i, y := y, textAlign := "left", characters := [] }
      | c0 :: _ =>
        { lineIndex := i, y := y,
          height := foldMax (fun ch => ch.height) chars,
          baseline := foldMax (fun ch => ch.baseline) chars,
          width := foldMax (fun ch => ch.x + ch.width) chars - c0.x,
          textAlign := "left", characters := chars }
    line :: linesFromYs layouts (i + 1) rest

/-- `JsonSerializer::groupIntoLines`. -/
def groupIntoLines (layouts : List CharLayout) : List Line :=
  linesFromYs layouts 0 (rowYs layouts)

/-- `JsonSerializer::isSameStyle`: the run fingerprint comparison. Note
that `textDecoration.thickness` is not among the compared fields. -/
def isSameStyle (a b : CharLayout) : Bool :=
  a.fontFamily == b.fontFamily &&
  a.fontSize == b.fontSize &&
  a.fontWeight == b.fontWeight &&
  a.fontStyle == b.fontStyle &&
  a.color == b.color &&
  a.backgroundColor == b.backgroundColor &&
  a.textDecoration.underline == b.textDecoration.underline &&
  a.textDecoration.overline == b.textDecoration.overline &&
  a.textDecoration.lineThrough == b.textDecoration.lineThrough &&
  a.textDecoration.color == b.textDecoration.color &&
  a.textDecoration.style == b.textDecoration.style

/-- Opening a new run in `groupIntoRuns`: index, starting x, and the style
fields copied from its first character. -/
def mkRun (idx : Nat) (c : CharLayout) : Run :=
  { runIndex := idx, x := c.x, fontFamily := c.fontFamily,
    fontSize := c.fontSize, fontWeight := c.fontWeight,
    fontStyle := c.fontStyle, color := c.color,
    backgroundColor := c.backgroundColor,
    textDecoration := c.textDecoration, characters := [c] }

/-- Main loop of `JsonSerializer::groupIntoRuns`: each character is
compared with `currentRun.characters.back()`; same style extends the
current run, a difference pushes it and opens a new run with
`runIndex = runs.size()`. -/
def groupIntoRunsGo (current : Run) (rest : List CharLayout)
    (runs : List Run) : List Run :=
  match rest with
  | [] => runs ++ [current]
  | ch :: rest' =>
    if isSameStyle (current.characters.getLastD ch) ch then
      groupIntoRunsGo { current with characters := current.characters ++ [ch] }
        rest' runs
    else
      groupIntoRunsGo (mkRun (runs.length + 1) ch) rest' (runs ++ [current])

/-- `JsonSerializer::groupIntoRuns`. -/
def groupIntoRuns : List CharLayout → List Run
  | [] => []
  | c :: rest => groupIntoRunsGo (mkRun 0 c) rest []

/-- The lines of full mode: `groupIntoLines` plus the per-line
`line.runs = groupIntoRuns(line.characters)` pass of `serializeFull`. -/
def fullLines (layouts : List CharLayout) : List Line :=
  (groupIntoLines layouts).map
    (fun l => { l with runs := groupIntoRuns l.characters })

/-- `JsonSerializer::serializeRun`. -/
def serializeRunJson (r : Run) : String :=
  "\x7b\"runIndex\":" ++ toString r.runIndex ++
  ",\"x\":" ++ toString r.x ++
  ",\"fontFamily\":\"" ++ escapeJson r.fontFamily ++
  "\",\"fontSize\":" ++ toString r.fontSize ++
  ",\"fontWeight\":" ++ toString r.fontWeight ++
  ",\"fontStyle\":\"" ++ escapeJson r.fontStyle ++
  "\",\"color\":\"" ++ escapeJson r.color ++
  "\",\"backgroundColor\":\"" ++ escapeJson r.backgroundColor ++
  "\",\"textDecoration\":" ++ serializeTextDecoration r.textDecoration ++
  ",\"characters\":[" ++
  String.intercalate "," (r.characters.map serializeCharLayout) ++ "]\x7d"

/-- `JsonSerializer::serializeLineSimple`. -/
def serializeLineSimple (l : Line) : String :=
  "\x7b\"lineIndex\":" ++ toString l.lineIndex ++
  ",\"y\":" ++ toString l.y ++
  ",\"baseline\":" ++ toString l.baseline ++
  ",\"height\":" ++ toString l.height ++
  ",\"width\":" ++ toString l.width ++
  ",\"textAlign\":\"" ++ escapeJson l.textAlign ++
  "\",\"characters\":[" ++
  String.intercalate "," (l.characters.map serializeCharLayout) ++ "]\x7d"

/-- `JsonSerializer::serializeLineFull`. -/
def serializeLineFull (l : Line) : String :=
  "\x7b\"lineIndex\":" ++ toString l.lineIndex ++
  ",\"y\":" ++ toString l.y ++
  ",\"baseline\":" ++ toString l.baseline ++
  ",\"height\":" ++ toString l.height ++
  ",\"width\":" ++ toString l.width ++
  ",\"textAlign\":\"" ++ escapeJson l.textAlign ++
  "\",\"runs\":[" ++
  String.intercalate "," (l.runs.map serializeRunJson) ++ "]\x7d"

/-- `JsonSerializer::serializeSimple`. -/
def serializeSimple (layouts : List CharLayout) (viewport : Viewport) :
    String :=
  let lines := groupIntoLines layouts
  "\x7b\"version\":\"2.0\",\"viewport\":\x7b\"width\":" ++
  toString viewport.width ++
  ",\"height\":" ++ toString viewport.height ++
  "\x7d,\"lines\":[" ++
  String.intercalate "," (lines.map serializeLineSimple) ++ "]\x7d"

/-- `JsonSerializer::serializeBoxSpacing` applied to the zero
margin/padding boxes the single synthetic block carries. -/
def zeroBoxSpacingJson : String :=
  "\x7b\"top\":0,\"right\":0,\"bottom\":0,\"left\":0\x7d"

/-- `JsonSerializer::serializeFull`: the run-annotated lines wrapped in one
synthetic div block (height = last line's `y + height`, width = viewport
width) inside one synthetic page matching the viewport. -/
def serializeFull (layouts : List CharLayout) (viewport : Viewport) :
    String :=
  let lines := fullLines layouts
  let blockHeight : Int :=
    match lines.getLast? with
    | some lastLine => lastLine.y + lastLine.height
    | none => 0
  "\x7b\"version\":\"2.0\",\"parserVersion\":\"2.0.0\"," ++
  "\"viewport\":\x7b\"width\":" ++ toString viewport.width ++
  ",\"height\":" ++ toString viewport.height ++
  "\x7d,\"pages\":[\x7b\"pageIndex\":0,\"width\":" ++
  toString viewport.width ++
  ",\"height\":" ++ toString viewport.height ++
  ",\"blocks\":[\x7b\"blockIndex\":0,\"type\":\"div\",\"x\":0,\"y\":0," ++
  "\"width\":" ++ toString viewport.width ++
  ",\"height\":" ++ toString blockHeight ++
  ",\"margin\":" ++ zeroBoxSpacingJson ++
  ",\"padding\":" ++ zeroBoxSpacingJson ++
  ",\"backgroundColor\":\"\",\"borderRadius\":0,\"lines\":[" ++
  String.intercalate "," (lines.map serializeLineFull) ++
  "]\x7d]\x7d]\x7d"

/-- `JsonSerializer::serialize`: mode dispatch. -/
def serialize (layouts : List CharLayout) (mode : OutputMode)
    (viewport : Viewport) : String :=
  match mode with
  | .Full => serializeFull layouts viewport
  | .Simple => serializeSimple layouts viewport
  | .ByRow => serializeByRow layouts
  | .Flat => serializeFlat layouts

/-! ### Claim C4: cache statistics counters -/

/-- C4 counterexample: the claim says every `set` call increments exactly
one of the hit/miss counters, but a `setCharWidth` call on the fresh cache
leaves both counters at zero. -/
theorem setCharWidth_touches_no_counter :
    (FontMetricsCache.initial.setCharWidth 1 16 65 10).hits = 0 ∧
    (FontMetricsCache.initial.setCharWidth 1 16 65 10).misses = 0 :=
  ⟨rfl, rfl⟩

/-- C4 (amended): every `get` call increments exactly one of the counters
(`hits` when the key is cached, `misses` otherwise), while `set`,
`clear(id)` and `clearAll()` leave both counters unchanged. -/
theorem cache_counter_discipline (c : FontMetricsCache) (fontId fontSize : Int)
    (codepoint : Nat) (width : Int) :
    ((c.getCharWidth fontId fontSize codepoint).2.hits =
      (if (c.lookupWidth fontId fontSize codepoint).isSome then c.hits + 1
       else c.hits)) ∧
    ((c.getCharWidth fontId fontSize codepoint).2.misses =
      (if (c.lookupWidth fontId fontSize codepoint).isSome then c.misses
       else c.misses + 1)) ∧
    (c.setCharWidth fontId fontSize codepoint width).hits = c.hits ∧
    (c.setCharWidth fontId fontSize codepoint width).misses = c.misses ∧
    (c.clearFont fontId).hits = c.hits ∧
    (c.clearFont fontId).misses = c.misses ∧
    c.clearAll.hits = c.hits ∧
    c.clearAll.misses = c.misses := by
  refine ⟨?_, ?_, rfl, rfl, rfl, rfl, rfl, rfl⟩ <;>
  · unfold FontMetricsCache.getCharWidth FontMetricsCache.lookupWidth
    cases h1 : mapLookup fontId c.fontCaches with
    | none => simp
    | some inner =>
      cases h2 : mapLookup (FontMetricsCache.makeKey fontSize codepoint) inner with
      | none => simp [h2]
      | some w => simp [h2]

/-! ### Claim C8: empty input serializes to valid empty output -/

/-- C8: the empty record list serializes without error in every mode:
`[]` for flat and byRow, and documents whose line arrays are empty for
simple and full. -/
theorem serialize_empty_every_mode (v : Viewport) :
    serialize [] OutputMode.Flat v = "[]" ∧
    serialize [] OutputMode.ByRow v = "[]" ∧
    groupIntoLines [] = [] ∧
    fullLines [] = [] ∧
    serialize [] OutputMode.Simple v =
      "\x7b\"version\":\"2.0\",\"viewport\":\x7b\"width\":" ++
        toString v.width ++ ",\"height\":" ++ toString v.height ++
        "\x7d,\"lines\":[]\x7d" ∧
    serialize [] OutputMode.Full v =
      "\x7b\"version\":\"2.0\",\"parserVersion\":\"2.0.0\",\"viewport\":\x7b\"width\":" ++
        toString v.width ++
        ",\"height\":" ++ toString v.height ++
        "\x7d,\"pages\":[\x7b\"pageIndex\":0,\"width\":" ++
        toString v.width ++
        ",\"height\":" ++ toString v.height ++
        ",\"blocks\":[\x7b\"blockIndex\":0,\"type\":\"div\",\"x\":0,\"y\":0,\"width\":" ++
        toString v.width ++
        ",\"height\":0,\"margin\":\x7b\"top\":0,\"right\":0,\"bottom\":0,\"left\":0\x7d," ++
        "\"padding\":\x7b\"top\":0,\"right\":0,\"bottom\":0,\"left\":0\x7d," ++
        "\"backgroundColor\":\"\",\"borderRadius\":0,\"lines\":[]\x7d]\x7d]\x7d" := by
  refine ⟨rfl, rfl, rfl, rfl, ?_, ?_⟩
  · show "\x7b\"version\":\"2.0\",\"viewport\":\x7b\"width\":" ++
      toString v.width ++ ",\"height\":" ++ toString v.height ++
      "\x7d,\"lines\":[" ++ "" ++ "]\x7d" = _
    simp only [String.append_assoc]
    rfl
  · show "\x7b\"version\":\"2.0\",\"parserVersion\":\"2.0.0\"," ++
      "\"viewport\":\x7b\"width\":" ++ toString v.width ++
      ",\"height\":" ++ toString v.height ++
      "\x7d,\"pages\":[\x7b\"pageIndex\":0,\"width\":" ++
      toString v.width ++
      ",\"height\":" ++ toString v.height ++
      ",\"blocks\":[\x7b\"blockIndex\":0,\"type\":\"div\",\"x\":0,\"y\":0," ++
      "\"width\":" ++ toString v.width ++
      ",\"height\":" ++ toString (0 : Int) ++
      ",\"margin\":" ++ zeroBoxSpacingJson ++
      ",\"padding\":" ++ zeroBoxSpacingJson ++
      ",\"backgroundColor\":\"\",\"borderRadius\":0,\"lines\":[" ++
      "" ++ "]\x7d]\x7d]\x7d" = _
    simp only [String.append_assoc]
    rfl

/-! ### Shared lemmas about the font registry -/

theorem checkMemoryThreshold_fields (st : MultiFontManager) (t : Nat) :
    ((st.checkMemoryThreshold t).2).fonts = st.fonts ∧
    ((st.checkMemoryThreshold t).2).nextFontId = st.nextFontId ∧
    ((st.checkMemoryThreshold t).2).defaultFontId = st.defaultFontId ∧
    ((st.checkMemoryThreshold t).2).libraryOk = st.libraryOk ∧
    ((st.checkMemoryThreshold t).2).fontInstances = st.fontInstances := by
  unfold MultiFontManager.checkMemoryThreshold
  split <;> exact ⟨rfl, rfl, rfl, rfl, rfl⟩

/-- The entry stored by a successful `loadFont` call. -/
def loadedEntry (st : MultiFontManager) (bytes : List Nat) (name : String)
    (face : Face) : FontEntry :=
  { id := st.nextFontId,
    name :=
      match face.familyName with
      | some fam => if name = "" then fam else name
      | none => name,
    face := some face, dataSize := bytes.length,
    memoryUsage := bytes.length, currentSize := 0 }

/-- The state after a successful `loadFont` call, before the memory check. -/
def loadedState (st : MultiFontManager) (bytes : List Nat) (name : String)
    (face : Face) : MultiFontManager :=
  { st with
    fonts := mapInsert st.nextFontId (loadedEntry st bytes name face) st.fonts,
    nextFontId := st.nextFontId + 1,
    defaultFontId :=
      if st.defaultFontId = 0 then st.nextFontId else st.defaultFontId }

theorem loadFont_success_eq (env : FTEnv) (st : MultiFontManager)
    (bytes : List Nat) (name : String) (face : Face)
    (hlib : st.libraryOk = true) (hbytes : bytes ≠ [])
    (hparse : env.parseFace bytes = some face) :
    MultiFontManager.loadFont env st (some bytes) name =
      (st.nextFontId,
       ((loadedState st bytes name face).checkMemoryThreshold
          memoryWarningThreshold).2) := by
  have hlen : ¬(bytes.length = 0 ∨ st.libraryOk = false) := by
    simp [hlib, List.length_eq_zero, hbytes]
  simp only [MultiFontManager.loadFont]
  rw [if_neg hlen, hparse]
  rfl

theorem unloadFont_nextFontId (st : MultiFontManager)
    (cache : FontMetricsCache) (i : Int) :
    (st.unloadFont cache i).1.nextFontId = st.nextFontId := by
  unfold MultiFontManager.unloadFont
  split <;> rfl

theorem clearAllFonts_nextFontId (st : MultiFontManager)
    (cache : FontMetricsCache) :
    (st.clearAllFonts cache).1.nextFontId = st.nextFontId := rfl

theorem setDefaultFont_nextFontId (st : MultiFontManager) (i : Int) :
    (st.setDefaultFont i).nextFontId = st.nextFontId := by
  unfold MultiFontManager.setDefaultFont
  split <;> rfl

theorem loadFont_id_cases (env : FTEnv) (st : MultiFontManager)
    (d : Option (List Nat)) (n : String) :
    MultiFontManager.loadFont env st d n = (0, st) ∨
    ((MultiFontManager.loadFont env st d n).1 = st.nextFontId ∧
     (MultiFontManager.loadFont env st d n).2.nextFontId =
       st.nextFontId + 1) := by
  cases d with
  | none => exact Or.inl rfl
  | some bytes =>
    by_cases hval : bytes.length = 0 ∨ st.libraryOk = false
    · left
      simp only [MultiFontManager.loadFont]
      rw [if_pos hval]
    · cases hparse : env.parseFace bytes with
      | none =>
        left
        simp only [MultiFontManager.loadFont]
        rw [if_neg hval, hparse]
      | some face =>
        right
        have hlib : st.libraryOk = true := by
          cases hb : st.libraryOk with
          | false => exact absurd (Or.inr hb) hval
          | true => rfl
        have hbytes : bytes ≠ [] := by
          intro h
          exact hval (Or.inl (by simp [h]))
        rw [loadFont_success_eq env st bytes n face hlib hbytes hparse]
        exact ⟨rfl, (checkMemoryThreshold_fields _ _).2.1⟩

theorem sum_mapInsert_fresh {κ α : Type} [LinearOrder κ] (g : κ × α → Nat)
    (k : κ) (v : α) (l : List (κ × α)) (hfresh : ∀ p ∈ l, p.1 ≠ k) :
    ((mapInsert k v l).map g).sum = (l.map g).sum + g (k, v) := by
  induction l with
  | nil => simp [mapInsert]
  | cons hd tl ih =>
    obtain ⟨k0, v0⟩ := hd
    have hk0 : k0 ≠ k := hfresh (k0, v0) (by simp)
    by_cases h1 : k < k0
    · simp only [mapInsert, if_pos h1, List.map_cons, List.sum_cons]
      ring
    · have h2 : ¬(k = k0) := fun hh => hk0 hh.symm
      simp only [mapInsert, if_neg h1, if_neg h2, List.map_cons, List.sum_cons,
        ih (fun p hp => hfresh p (by simp [hp]))]
      ring

/-! ### Claim C7: load failures are atomic; first success becomes default -/

/-- C7: `loadFont` returns the failure sentinel 0 with the registry state
bit-for-bit unchanged on a null buffer, an empty buffer, an uninitialized
engine, or a face-parse failure; on success when no default is set (in
particular for the first ever load) the new id becomes the default. -/
theorem loadFont_failure_atomic_first_default :
    (∀ (env : FTEnv) (st : MultiFontManager) (name : String),
      MultiFontManager.loadFont env st none name = (0, st)) ∧
    (∀ (env : FTEnv) (st : MultiFontManager) (name : String),
      MultiFontManager.loadFont env st (some []) name = (0, st)) ∧
    (∀ (env : FTEnv) (st : MultiFontManager) (bytes : List Nat)
        (name : String), st.libraryOk = false →
      MultiFontManager.loadFont env st (some bytes) name = (0, st)) ∧
    (∀ (env : FTEnv) (st : MultiFontManager) (bytes : List Nat)
        (name : String), env.parseFace bytes = none →
      MultiFontManager.loadFont env st (some bytes) name = (0, st)) ∧
    (∀ (env : FTEnv) (st : MultiFontManager) (bytes : List Nat)
        (name : String) (face : Face),
      st.defaultFontId = 0 → st.libraryOk = true → bytes ≠ [] →
      env.parseFace bytes = some face →
      (MultiFontManager.loadFont env st (some bytes) name).1 =
          st.nextFontId ∧
        (MultiFontManager.loadFont env st (some bytes) name).2.defaultFontId =
          st.nextFontId) := by
  refine ⟨fun env st name => rfl, ?_, ?_, ?_, ?_⟩
  · intro env st name
    simp [MultiFontManager.loadFont]
  · intro env st bytes name hlib
    simp only [MultiFontManager.loadFont]
    rw [if_pos (Or.inr hlib)]
  · intro env st bytes name hparse
    by_cases hval : bytes.length = 0 ∨ st.libraryOk = false
    · simp only [MultiFontManager.loadFont]
      rw [if_pos hval]
    · simp only [MultiFontManager.loadFont]
      rw [if_neg hval, hparse]
  · intro env st bytes name face hdef hlib hbytes hparse
    rw [loadFont_success_eq env st bytes name face hlib hbytes hparse]
    refine ⟨rfl, ?_⟩
    rw [(checkMemoryThreshold_fields _ _).2.2.1]
    simp [loadedState, hdef]

/-- C7 witness at a concrete fresh registry and a one-byte typeface. -/
theorem loadFont_failure_atomic_first_default_witness :
    (MultiFontManager.loadFont ⟨fun _ => some ⟨fun _ => 0, fun _ => true,
        fun _ _ => true, fun _ _ => 7, fun _ _ => 7, none⟩⟩
      MultiFontManager.initial (some [42]) "demo").2.defaultFontId = 1 :=
  (loadFont_failure_atomic_first_default.2.2.2.2
    ⟨fun _ => some ⟨fun _ => 0, fun _ => true, fun _ _ => true,
      fun _ _ => 7, fun _ _ => 7, none⟩⟩
    MultiFontManager.initial [42] "demo"
    ⟨fun _ => 0, fun _ => true, fun _ _ => true, fun _ _ => 7,
      fun _ _ => 7, none⟩
    rfl rfl (by simp) rfl).2

/-! ### Claim C9: memory accounting round trip -/

/-- C9: a successful load of an `N`-byte typeface raises
`getTotalMemoryUsage` by exactly `N`, and unloading the id returned by
that load brings the total back to the prior value and clears the
one-shot memory-warning latch. -/
theorem load_unload_memory_roundtrip (env : FTEnv) (st : MultiFontManager)
    (cache : FontMetricsCache) (bytes : List Nat) (name : String)
    (face : Face)
    (hfresh : ∀ p ∈ st.fonts, p.1 ≠ st.nextFontId)
    (hlib : st.libraryOk = true) (hbytes : bytes ≠ [])
    (hparse : env.parseFace bytes = some face) :
    (MultiFontManager.loadFont env st (some bytes) name).1 =
        st.nextFontId ∧
      (MultiFontManager.loadFont env st (some bytes) name).2.getTotalMemoryUsage =
        st.getTotalMemoryUsage + bytes.length ∧
      ((MultiFontManager.loadFont env st (some bytes) name).2.unloadFont cache
          st.nextFontId).1.getTotalMemoryUsage =
        st.getTotalMemoryUsage ∧
      ((MultiFontManager.loadFont env st (some bytes) name).2.unloadFont cache
          st.nextFontId).1.memoryWarningIssued = false := by
  rw [loadFont_success_eq env st bytes name face hlib hbytes hparse]
  have hfonts :
      ((loadedState st bytes name face).checkMemoryThreshold
        memoryWarningThreshold).2.fonts =
      mapInsert st.nextFontId (loadedEntry st bytes name face) st.fonts :=
    (checkMemoryThreshold_fields _ _).1
  have hmem :
      ((loadedState st bytes name face).checkMemoryThreshold
        memoryWarningThreshold).2.getTotalMemoryUsage =
      st.getTotalMemoryUsage + bytes.length := by
    unfold MultiFontManager.getTotalMemoryUsage
    rw [hfonts]
    exact sum_mapInsert_fresh (fun p => p.2.memoryUsage) _ _ _ hfresh
  refine ⟨rfl, hmem, ?_, ?_⟩
  · unfold MultiFontManager.unloadFont
    rw [hfonts, mapLookup_mapInsert_self]
    simp only [MultiFontManager.getTotalMemoryUsage,
      mapErase_mapInsert_fresh _ _ _ hfresh]
  · unfold MultiFontManager.unloadFont
    rw [hfonts, mapLookup_mapInsert_self]

/-- C9 witness: a three-byte typeface loaded into the fresh registry and
unloaded again. -/
theorem load_unload_memory_roundtrip_witness :
    ((MultiFontManager.loadFont ⟨fun _ => some ⟨fun _ => 0, fun _ => true,
          fun _ _ => true, fun _ _ => 7, fun _ _ => 7, none⟩⟩
        MultiFontManager.initial (some [1, 2, 3]) "demo").2.unloadFont
      FontMetricsCache.initial 1).1.getTotalMemoryUsage = 0 := by
  have h := load_unload_memory_roundtrip
    ⟨fun _ => some ⟨fun _ => 0, fun _ => true, fun _ _ => true,
      fun _ _ => 7, fun _ _ => 7, none⟩⟩
    MultiFontManager.initial FontMetricsCache.initial [1, 2, 3] "demo"
    ⟨fun _ => 0, fun _ => true, fun _ _ => true, fun _ _ => 7,
      fun _ _ => 7, none⟩
    (by intro p hp; cases hp) rfl (by decide) rfl
  exact h.2.2.1

/-! ### Claim C10: ids strictly increase and are never reassigned -/

/-- C10: over any operation sequence, the ids handed out by successful
loads are strictly increasing positive integers (so an id is never
reassigned, even after its typeface is unloaded), and the next-id counter
advances by exactly the number of successful loads. -/
theorem load_ids_strictly_increasing (env : FTEnv) :
    ∀ (ops : List MgrOp) (st : MultiFontManager) (cache : FontMetricsCache),
      0 < st.nextFontId →
      List.Chain' (fun a b => a < b) (runMgrOps env st cache ops).2.2 ∧
      (∀ i ∈ (runMgrOps env st cache ops).2.2,
        0 < i ∧ st.nextFontId ≤ i) ∧
      (runMgrOps env st cache ops).1.nextFontId =
        st.nextFontId + (runMgrOps env st cache ops).2.2.length := by
  intro ops
  induction ops with
  | nil =>
    intro st cache h
    exact ⟨List.chain'_nil, by simp [runMgrOps], by simp [runMgrOps]⟩
  | cons op rest ih =>
    intro st cache h
    cases op with
    | load d n =>
      rcases loadFont_id_cases env st d n with heq | ⟨hid, hnext⟩
      · obtain ⟨hch, hmem, hlen⟩ := ih st cache h
        simp only [runMgrOps, heq]
        exact ⟨hch, hmem, by simpa using hlen⟩
      · have h' : 0 < (MultiFontManager.loadFont env st d n).2.nextFontId := by
          omega
        obtain ⟨hch, hmem, hlen⟩ :=
          ih (MultiFontManager.loadFont env st d n).2 cache h'
        have hne : (MultiFontManager.loadFont env st d n).1 ≠ 0 := by omega
        simp only [runMgrOps, if_neg hne]
        refine ⟨?_, ?_, ?_⟩
        · rw [List.chain'_cons']
          refine ⟨?_, hch⟩
          intro b hb
          have hbmem := List.mem_of_mem_head? hb
          have := (hmem b hbmem).2
          omega
        · intro i hi
          rcases List.mem_cons.mp hi with hi | hi
          · omega
          · have := hmem i hi
            omega
        · simp only [List.length_cons]
          omega
    | unload i =>
      obtain ⟨hch, hmem, hlen⟩ :=
        ih (st.unloadFont cache i).1 (st.unloadFont cache i).2
          (by rw [unloadFont_nextFontId]; exact h)
      rw [unloadFont_nextFontId] at hmem hlen
      exact ⟨hch, hmem, hlen⟩
    | clearAll =>
      obtain ⟨hch, hmem, hlen⟩ :=
        ih (st.clearAllFonts cache).1 (st.clearAllFonts cache).2
          (by rw [clearAllFonts_nextFontId]; exact h)
      rw [clearAllFonts_nextFontId] at hmem hlen
      exact ⟨hch, hmem, hlen⟩
    | setDefault i =>
      obtain ⟨hch, hmem, hlen⟩ :=
        ih (st.setDefaultFont i) cache
          (by rw [setDefaultFont_nextFontId]; exact h)
      rw [setDefaultFont_nextFontId] at hmem hlen
      exact ⟨hch, hmem, hlen⟩

/-- C10 witness: load, unload, load again — ids 1 then 2, counter at 3. -/
theorem load_ids_strictly_increasing_witness :
    List.Chain' (fun a b => a < b)
      (runMgrOps ⟨fun _ => some ⟨fun _ => 0, fun _ => true, fun _ _ => true,
          fun _ _ => 7, fun _ _ => 7, none⟩⟩
        MultiFontManager.initial FontMetricsCache.initial
        [MgrOp.load (some [1]) "a", MgrOp.unload 1,
         MgrOp.load (some [2]) "b"]).2.2 :=
  (load_ids_strictly_increasing
    ⟨fun _ => some ⟨fun _ => 0, fun _ => true, fun _ _ => true,
      fun _ _ => 7, fun _ _ => 7, none⟩⟩
    [MgrOp.load (some [1]) "a", MgrOp.unload 1, MgrOp.load (some [2]) "b"]
    MultiFontManager.initial FontMetricsCache.initial (by decide)).1

/-! ### Claim C5: unload invalidates exactly that font's cache entries -/

theorem mapLookup_eq_none_of_not_mem {κ α : Type} [DecidableEq κ] (k : κ)
    (l : List (κ × α)) (h : k ∉ l.map Prod.fst) : mapLookup k l = none := by
  induction l with
  | nil => rfl
  | cons hd tl ih =>
    obtain ⟨k0, v0⟩ := hd
    simp only [List.map_cons, List.mem_cons] at h
    push_neg at h
    simp only [mapLookup, if_neg h.1]
    exact ih h.2

theorem mapLookup_mapErase_self_nodup {κ α : Type} [DecidableEq κ] (k : κ)
    (l : List (κ × α)) (hnd : (l.map Prod.fst).Nodup) :
    mapLookup k (mapErase k l) = none := by
  induction l with
  | nil => rfl
  | cons hd tl ih =>
    obtain ⟨k0, v0⟩ := hd
    simp only [List.map_cons, List.nodup_cons] at hnd
    by_cases h : k = k0
    · subst h
      simp only [mapErase, if_pos rfl]
      exact mapLookup_eq_none_of_not_mem k tl hnd.1
    · simp only [mapErase, if_neg h, mapLookup, if_neg h]
      exact ih hnd.2

theorem mapErase_preserves_none {κ α : Type} [DecidableEq κ] (k k' : κ)
    (l : List (κ × α)) (h : mapLookup k l = none) :
    mapLookup k (mapErase k' l) = none := by
  induction l with
  | nil => rfl
  | cons hd tl ih =>
    obtain ⟨k0, v0⟩ := hd
    simp only [mapLookup] at h
    by_cases hk : k = k0
    · rw [if_pos hk] at h
      cases h
    · rw [if_neg hk] at h
      simp only [mapErase]
      by_cases hk' : k' = k0
      · rw [if_pos hk']
        exact h
      · rw [if_neg hk']
        simp only [mapLookup, if_neg hk]
        exact ih h

theorem getCharWidth_fst_of_outer_none (c : FontMetricsCache)
    (fontId fontSize : Int) (codepoint : Nat)
    (h : mapLookup fontId c.fontCaches = none) :
    (c.getCharWidth fontId fontSize codepoint).1 = -1 := by
  unfold FontMetricsCache.getCharWidth
  rw [h]

theorem getCharWidth_snd_fontCaches (c : FontMetricsCache)
    (fontId fontSize : Int) (codepoint : Nat) :
    (c.getCharWidth fontId fontSize codepoint).2.fontCaches = c.fontCaches := by
  unfold FontMetricsCache.getCharWidth
  split
  · rfl
  · split <;> rfl

theorem applyCacheOp_preserves_none (fontId : Int) (c : FontMetricsCache)
    (op : CacheOp) (h : mapLookup fontId c.fontCaches = none)
    (hop : ∀ s cp w, op ≠ CacheOp.set fontId s cp w) :
    mapLookup fontId (applyCacheOp c op).fontCaches = none := by
  cases op with
  | get f s cp => rw [applyCacheOp, getCharWidth_snd_fontCaches]; exact h
  | set f s cp w =>
    have hf : fontId ≠ f := by
      intro he
      exact hop s cp w (by rw [he])
    simp only [applyCacheOp, FontMetricsCache.setCharWidth]
    rw [mapLookup_mapInsert_ne _ _ _ _ hf]
    exact h
  | clearFont f =>
    simp only [applyCacheOp, FontMetricsCache.clearFont]
    exact mapErase_preserves_none _ _ _ h
  | clearAll => rfl
  | resetStats => exact h

theorem runCacheOps_preserves_none (fontId : Int) :
    ∀ (ops : List CacheOp) (c : FontMetricsCache),
      mapLookup fontId c.fontCaches = none →
      (∀ op ∈ ops, ∀ s cp w, op ≠ CacheOp.set fontId s cp w) →
      mapLookup fontId (runCacheOps c ops).fontCaches = none := by
  intro ops
  induction ops with
  | nil => intro c h _; exact h
  | cons op rest ih =>
    intro c h hops
    exact ih (applyCacheOp c op)
      (applyCacheOp_preserves_none fontId c op h
        (hops op (by simp)))
      (fun o ho => hops o (by simp [ho]))

theorem unloadFont_cache_eq (st : MultiFontManager) (cache : FontMetricsCache)
    (fontId : Int) (hloaded : st.isFontLoaded fontId = true) :
    (st.unloadFont cache fontId).2 = cache.clearFont fontId := by
  unfold MultiFontManager.isFontLoaded at hloaded
  rcases Option.isSome_iff_exists.mp hloaded with ⟨e, he⟩
  unfold MultiFontManager.unloadFont
  rw [he]

/-- C5: after `unloadFont(id)` of a loaded id, every cache `get` for that
id returns the `-1` not-cached sentinel; this persists across any further
cache calls that contain no `set` for that id, while a new `set`
repopulates the key; the cached entries of every other font id are
untouched. (`hnd` is the representation invariant of `std::map`: one entry
per font id.) -/
theorem unload_invalidates_cache (st : MultiFontManager)
    (cache : FontMetricsCache) (fontId : Int)
    (hloaded : st.isFontLoaded fontId = true)
    (hnd : (cache.fontCaches.map Prod.fst).Nodup) :
    (∀ (s : Int) (cp : Nat),
      ((st.unloadFont cache fontId).2.getCharWidth fontId s cp).1 = -1) ∧
    (∀ (i : Int) (s : Int) (cp : Nat), i ≠ fontId →
      (st.unloadFont cache fontId).2.lookupWidth i s cp =
        cache.lookupWidth i s cp) ∧
    (∀ (ops : List CacheOp),
      (∀ op ∈ ops, ∀ (s : Int) (cp : Nat) (w : Int),
        op ≠ CacheOp.set fontId s cp w) →
      ∀ (s : Int) (cp : Nat),
        ((runCacheOps (st.unloadFont cache fontId).2 ops).getCharWidth
          fontId s cp).1 = -1) ∧
    (∀ (s : Int) (cp : Nat) (w : Int),
      (((st.unloadFont cache fontId).2.setCharWidth fontId s cp w).getCharWidth
        fontId s cp).1 = w) := by
  rw [unloadFont_cache_eq st cache fontId hloaded]
  have hnone : mapLookup fontId (cache.clearFont fontId).fontCaches = none :=
    mapLookup_mapErase_self_nodup fontId cache.fontCaches hnd
  refine ⟨?_, ?_, ?_, ?_⟩
  · intro s cp
    exact getCharWidth_fst_of_outer_none _ _ _ _ hnone
  · intro i s cp hi
    unfold FontMetricsCache.lookupWidth FontMetricsCache.clearFont
    rw [mapLookup_mapErase_ne _ _ _ hi]
  · intro ops hops s cp
    exact getCharWidth_fst_of_outer_none _ _ _ _
      (runCacheOps_preserves_none fontId ops _ hnone hops)
  · intro s cp w
    unfold FontMetricsCache.getCharWidth FontMetricsCache.setCharWidth
    simp only [mapLookup_mapInsert_self]

/-- Concrete face for witnesses: no glyph for any codepoint except the
digit `'0'` (index 5), every advance metric 7 pixels. -/
def demoFace : Face :=
  ⟨fun c => if c = 48 then 5 else 0, fun _ => true, fun _ _ => true,
   fun _ _ => 7, fun _ _ => 7, none⟩

/-- Concrete loaded entry for witnesses. -/
def demoEntry : FontEntry :=
  { id := 1, name := "Demo", face := some demoFace, dataSize := 3,
    memoryUsage := 3, currentSize := 0 }

/-- Concrete registry with one loaded font (id 1) for witnesses. -/
def demoMgr : MultiFontManager :=
  { libraryOk := true, fonts := [(1, demoEntry)], nextFontId := 2,
    defaultFontId := 1, fontInstances := [], nextFontHandle := 1,
    memoryWarningIssued := false }

/-- Concrete cache holding one width for font 1 for witnesses. -/
def demoCache : FontMetricsCache :=
  FontMetricsCache.initial.setCharWidth 1 16 100 11

/-- C5 witness: after unloading font 1, the previously cached
`(1, 16, 100)` entry is a miss. -/
theorem unload_invalidates_cache_witness :
    ((demoMgr.unloadFont demoCache 1).2.getCharWidth 1 16 100).1 = -1 :=
  (unload_invalidates_cache demoMgr demoCache 1 rfl (by decide)).1 16 100

/-! ### Claim C6: quote-aware font-family resolution -/

theorem resolveFontFamilyGo_cons_zero (st : MultiFontManager) (n : String)
    (rest : List String) (h : st.findFontByName n = 0) :
    resolveFontFamilyGo st (n :: rest) = resolveFontFamilyGo st rest := by
  simp [resolveFontFamilyGo, h]

theorem resolveFontFamilyGo_cons_nonzero (st : MultiFontManager) (n : String)
    (rest : List String) (h : st.findFontByName n ≠ 0) :
    resolveFontFamilyGo st (n :: rest) = st.findFontByName n := by
  simp [resolveFontFamilyGo, h]

theorem resolveFontFamilyGo_spec (st : MultiFontManager) :
    ∀ names : List String,
      ((∀ n ∈ names, st.findFontByName n = 0) ∧
        resolveFontFamilyGo st names = st.defaultFontId) ∨
      (∃ pre n post, names = pre ++ n :: post ∧
        (∀ m ∈ pre, st.findFontByName m = 0) ∧
        st.findFontByName n ≠ 0 ∧
        resolveFontFamilyGo st names = st.findFontByName n) := by
  intro names
  induction names with
  | nil => exact Or.inl ⟨by simp, rfl⟩
  | cons n rest ih =>
    by_cases h : st.findFontByName n = 0
    · rcases ih with ⟨hall, hres⟩ | ⟨pre, m, post, heq, hpre, hm, hres⟩
      · refine Or.inl ⟨?_, ?_⟩
        · intro x hx
          rcases List.mem_cons.mp hx with hx | hx
          · rw [hx]; exact h
          · exact hall x hx
        · rw [resolveFontFamilyGo_cons_zero st n rest h]
          exact hres
      · refine Or.inr ⟨n :: pre, m, post, by rw [heq]; rfl, ?_, hm, ?_⟩
        · intro x hx
          rcases List.mem_cons.mp hx with hx | hx
          · rw [hx]; exact h
          · exact hpre x hx
        · rw [resolveFontFamilyGo_cons_zero st n rest h]
          exact hres
    · exact Or.inr ⟨[], n, rest, rfl, by simp, h,
        resolveFontFamilyGo_cons_nonzero st n rest h⟩

/-- Concrete registry for the C6 scenario: `Times` (id 1) is loaded and is
the default, `Arial` (id 2) is loaded. -/
def familyMgr : MultiFontManager :=
  { libraryOk := true,
    fonts :=
      [(1, { id := 1, name := "Times", face := none, dataSize := 3,
             memoryUsage := 3, currentSize := 0 }),
       (2, { id := 2, name := "Arial", face := none, dataSize := 4,
             memoryUsage := 4, currentSize := 0 })],
    nextFontId := 3, defaultFontId := 1, fontInstances := [],
    nextFontHandle := 1, memoryWarningIssued := false }

/-- C6: `resolveFontFamily` splits the chain on commas outside single or
double quotes, normalizes (trims, lowercases) each candidate, and returns
the first candidate matching a loaded font, else the default id; in
particular the chain `"Quoted, Name", Arial, sans-serif` with `Arial`
loaded resolves to Arial's id 2 although the default is the different
typeface id 1. -/
theorem resolveFontFamily_first_loaded_match :
    (∀ (st : MultiFontManager) (chain : String),
      ((∀ n ∈ parseFontFamily chain, st.findFontByName n = 0) ∧
        st.resolveFontFamily chain = st.defaultFontId) ∨
      (∃ pre n post, parseFontFamily chain = pre ++ n :: post ∧
        (∀ m ∈ pre, st.findFontByName m = 0) ∧
        st.findFontByName n ≠ 0 ∧
        st.resolveFontFamily chain = st.findFontByName n)) ∧
    parseFontFamily "\"Quoted, Name\", Arial, sans-serif" =
      ["quoted, name", "arial", "sans-serif"] ∧
    familyMgr.defaultFontId = 1 ∧
    familyMgr.findFontByName "Arial" = 2 ∧
    familyMgr.resolveFontFamily "\"Quoted, Name\", Arial, sans-serif" = 2 := by
  refine ⟨?_, by decide, rfl, by decide, by decide⟩
  intro st chain
  exact resolveFontFamilyGo_spec st (parseFontFamily chain)

/-- C6 witness: the quoted chain resolves to Arial's id in the concrete
registry. -/
theorem resolveFontFamily_first_loaded_match_witness :
    familyMgr.resolveFontFamily "\"Quoted, Name\", Arial, sans-serif" = 2 :=
  resolveFontFamily_first_loaded_match.2.2.2.2

/-! ### Claim C3: byRow grouping, ordering and determinism -/

instance : IsTotal CharLayout (fun a b => a.x ≤ b.x) :=
  ⟨fun a b => le_total a.x b.x⟩

instance : IsTrans CharLayout (fun a b => a.x ≤ b.x) :=
  ⟨fun _ _ _ hab hbc => le_trans hab hbc⟩

theorem rowYs_sorted_lt (layouts : List CharLayout) :
    List.Chain' (fun a b => a < b) (rowYs layouts) := by
  have hs : List.Sorted (fun a b : Int => a ≤ b) (rowYs layouts) :=
    List.sorted_insertionSort _ _
  have hnd : (rowYs layouts).Nodup :=
    (List.perm_insertionSort _ _).nodup_iff.mpr
      (List.nodup_dedup (layouts.map (fun l => l.y)))
  exact List.chain'_iff_pairwise.mpr (hs.lt_of_le hnd)

theorem rowsFromYs_map_y (layouts : List CharLayout) :
    ∀ (i : Nat) (ys : List Int),
      (rowsFromYs layouts i ys).map (fun r => r.y) = ys := by
  intro i ys
  induction ys generalizing i with
  | nil => rfl
  | cons y rest ih => simp [rowsFromYs, ih]

theorem rowsFromYs_length (layouts : List CharLayout) :
    ∀ (i : Nat) (ys : List Int), (rowsFromYs layouts i ys).length = ys.length := by
  intro i ys
  induction ys generalizing i with
  | nil => rfl
  | cons y rest ih => simp [rowsFromYs, ih]

theorem rowsFromYs_map_idx (layouts : List CharLayout) :
    ∀ (i : Nat) (ys : List Int),
      (rowsFromYs layouts i ys).map (fun r => r.rowIndex) =
        List.range' i ys.length := by
  intro i ys
  induction ys generalizing i with
  | nil => rfl
  | cons y rest ih => simp [rowsFromYs, ih, List.range'_succ]

theorem mem_rowsFromYs (layouts : List CharLayout) :
    ∀ (i : Nat) (ys : List Int) (r : Row), r ∈ rowsFromYs layouts i ys →
      r.children = rowChildren layouts r.y := by
  intro i ys
  induction ys generalizing i with
  | nil => intro r hr; cases hr
  | cons y rest ih =>
    intro r hr
    rcases List.mem_cons.mp hr with hr | hr
    · rw [hr]
    · exact ih (i + 1) r hr

theorem rowChildren_sorted (layouts : List CharLayout) (y : Int) :
    List.Sorted (fun a b : CharLayout => a.x ≤ b.x) (rowChildren layouts y) :=
  List.sorted_insertionSort _ _

theorem rowChildren_perm (layouts : List CharLayout) (y : Int) :
    (rowChildren layouts y).Perm (layouts.filter (fun c => c.y == y)) :=
  List.perm_insertionSort _ _

theorem rowChildren_y_eq (layouts : List CharLayout) (y : Int) :
    ∀ c ∈ rowChildren layouts y, c.y = y := by
  intro c hc
  have hmem := (rowChildren_perm layouts y).mem_iff.mp hc
  have := List.of_mem_filter hmem
  exact eq_of_beq this

/-- C3 (amended): byRow serialization is deterministic (a pure function of
the records, so two runs are byte-identical); rows are exactly the groups
of records with equal integer `y`, row `y` values are strictly ascending,
`rowIndex` runs 0..N-1 in that order, and within each row the children are
x-sorted in nondecreasing (not necessarily strict — equal `x` values tie)
order. -/
theorem byRow_grouping_sorted (layouts : List CharLayout) :
    serializeByRow layouts = serializeByRow layouts ∧
    List.Chain' (fun a b => a < b)
      ((byRowRows layouts).map (fun r => r.y)) ∧
    (byRowRows layouts).map (fun r => r.rowIndex) =
      List.range (byRowRows layouts).length ∧
    ∀ r ∈ byRowRows layouts,
      (∀ c ∈ r.children, c.y = r.y) ∧
      r.children.Perm (layouts.filter (fun c => c.y == r.y)) ∧
      List.Sorted (fun a b : CharLayout => a.x ≤ b.x) r.children := by
  refine ⟨rfl, ?_, ?_, ?_⟩
  · rw [byRowRows, rowsFromYs_map_y]
    exact rowYs_sorted_lt layouts
  · rw [byRowRows, rowsFromYs_map_idx, rowsFromYs_length, List.range_eq_range']
  · intro r hr
    have hch := mem_rowsFromYs layouts 0 (rowYs layouts) r hr
    rw [hch]
    exact ⟨rowChildren_y_eq layouts r.y, rowChildren_perm layouts r.y,
      rowChildren_sorted layouts r.y⟩

/-- Two byte-identical records sharing position (5, 10). -/
def dupChar : CharLayout := { x := 5, y := 10 }

/-- C3 counterexample: with two records at the same position the single
output row's children are not in strictly ascending `x` order (both have
`x = 5`), refuting the claim's strictness. -/
theorem byRow_strict_x_counterexample :
    (((byRowRows [dupChar, dupChar]).headD default).children.map
        (fun c => c.x)) = [5, 5] ∧
    ¬ List.Chain' (fun a b : Int => a < b) [5, 5] :=
  ⟨rfl, by simp [List.chain'_cons]⟩

/-- C3 witness: the strictly-ascending-row-`y` part at the concrete
duplicate-record input. -/
theorem byRow_grouping_sorted_witness :
    List.Chain' (fun a b => a < b)
      ((byRowRows [dupChar, dupChar]).map (fun r => r.y)) :=
  (byRow_grouping_sorted [dupChar, dupChar]).2.1

/-! ### Claim C2: full-mode run segmentation -/

/-- The fingerprint relation the code uses between adjacent characters. -/
def sameStyleRel (a b : CharLayout) : Prop := isSameStyle a b = true

/-- Boundary between two adjacent runs: the last character of the first
and the first character of the second differ in the code's fingerprint. -/
def runBoundaryRel (r₁ r₂ : Run) : Prop :=
  isSameStyle (r₁.characters.getLastD default)
    (r₂.characters.headD default) = false

theorem getLastD_indep {α : Type} (l : List α) (h : l ≠ []) (d d' : α) :
    l.getLastD d = l.getLastD d' := by
  cases l with
  | nil => exact absurd rfl h
  | cons a t => rfl

theorem headD_append_left {α : Type} (l : List α) (x d : α) (h : l ≠ []) :
    (l ++ [x]).headD d = l.headD d := by
  cases l with
  | nil => exact absurd rfl h
  | cons a t => rfl

theorem getLast?_eq_some_getLastD {α : Type} :
    ∀ (l : List α), l ≠ [] → ∀ (d : α), l.getLast? = some (l.getLastD d) := by
  intro l
  induction l with
  | nil => intro h; exact absurd rfl h
  | cons a t ih =>
    intro _ d
    cases t with
    | nil => rfl
    | cons b t' =>
      rw [List.getLast?_cons_cons]
      exact ih (by simp) a

theorem groupIntoRunsGo_join :
    ∀ (rest : List CharLayout) (current : Run) (runs : List Run),
      ((groupIntoRunsGo current rest runs).map (fun r => r.characters)).flatten =
        ((runs.map (fun r => r.characters)).flatten) ++ current.characters ++
          rest := by
  intro rest
  induction rest with
  | nil =>
    intro current runs
    simp [groupIntoRunsGo]
  | cons ch rest' ih =>
    intro current runs
    rw [groupIntoRunsGo]
    by_cases h : isSameStyle (current.characters.getLastD ch) ch = true
    · rw [if_pos h, ih]
      simp
    · rw [if_neg h, ih]
      simp [mkRun]

theorem groupIntoRunsGo_wf :
    ∀ (rest : List CharLayout) (current : Run) (runs : List Run),
      current.characters ≠ [] →
      List.Chain' sameStyleRel current.characters →
      (∀ r ∈ runs, r.characters ≠ [] ∧
        List.Chain' sameStyleRel r.characters) →
      List.Chain' runBoundaryRel (runs ++ [current]) →
      current.runIndex = runs.length →
      runs.map (fun r => r.runIndex) = List.range runs.length →
      (∀ r ∈ groupIntoRunsGo current rest runs,
        r.characters ≠ [] ∧ List.Chain' sameStyleRel r.characters) ∧
      List.Chain' runBoundaryRel (groupIntoRunsGo current rest runs) ∧
      (groupIntoRunsGo current rest runs).map (fun r => r.runIndex) =
        List.range (groupIntoRunsGo current rest runs).length := by
  intro rest
  induction rest with
  | nil =>
    intro current runs hne hchain hruns hbound hidx hmap
    rw [groupIntoRunsGo]
    refine ⟨?_, hbound, ?_⟩
    · intro r hr
      rcases List.mem_append.mp hr with hr | hr
      · exact hruns r hr
      · rw [List.mem_singleton.mp hr]
        exact ⟨hne, hchain⟩
    · simp only [List.map_append, List.map_cons, List.map_nil, hmap, hidx,
        List.length_append, List.length_cons, List.length_nil]
      rw [← List.range_succ]
  | cons ch rest' ih =>
    intro current runs hne hchain hruns hbound hidx hmap
    rw [groupIntoRunsGo]
    by_cases h : isSameStyle (current.characters.getLastD ch) ch = true
    · rw [if_pos h]
      refine ih _ runs (by simp) ?_ hruns ?_ (by simpa using hidx)
        (by simpa using hmap)
      · rw [List.chain'_append]
        refine ⟨hchain, List.chain'_singleton ch, ?_⟩
        intro x hx y hy
        rw [getLast?_eq_some_getLastD current.characters hne ch] at hx
        rw [Option.mem_def, Option.some_inj] at hx
        simp only [List.head?_cons, Option.mem_def, Option.some_inj] at hy
        show isSameStyle x y = true
        rw [← hx, ← hy]
        exact h
      · rw [List.chain'_append] at hbound ⊢
        obtain ⟨h1, _, h3⟩ := hbound
        refine ⟨h1, List.chain'_singleton _, ?_⟩
        intro x hx y hy
        simp only [List.head?_cons, Option.mem_def, Option.some_inj] at hy
        have hb := h3 x hx current (by simp)
        rw [← hy]
        show isSameStyle (x.characters.getLastD default)
          ((current.characters ++ [ch]).headD default) = false
        rw [headD_append_left current.characters ch default hne]
        exact hb
    · rw [if_neg h]
      have hBcur : runBoundaryRel current (mkRun (runs.length + 1) ch) := by
        show isSameStyle (current.characters.getLastD default)
          ([ch].headD default) = false
        have hd : current.characters.getLastD default =
            current.characters.getLastD ch :=
          getLastD_indep current.characters hne default ch
        rw [hd]
        exact Bool.not_eq_true _ ▸ (by simpa using h)
      refine ih (mkRun (runs.length + 1) ch) (runs ++ [current])
        (by simp [mkRun]) (by simp [mkRun, List.chain'_singleton]) ?_ ?_
        (by simp [mkRun]) ?_
      · intro r hr
        rcases List.mem_append.mp hr with hr | hr
        · exact hruns r hr
        · rw [List.mem_singleton.mp hr]
          exact ⟨hne, hchain⟩
      · rw [List.chain'_append]
        refine ⟨hbound, List.chain'_singleton _, ?_⟩
        intro x hx y hy
        rw [List.getLast?_concat, Option.mem_def, Option.some_inj] at hx
        simp only [List.head?_cons, Option.mem_def, Option.some_inj] at hy
        rw [← hx, ← hy]
        exact hBcur
      · simp only [List.map_append, List.map_cons, List.map_nil, hmap, hidx,
          List.length_append, List.length_cons, List.length_nil]
        rw [← List.range_succ]

theorem groupIntoRuns_wf (chars : List CharLayout) :
    ((groupIntoRuns chars).map (fun r => r.characters)).flatten = chars ∧
    (∀ r ∈ groupIntoRuns chars,
      r.characters ≠ [] ∧ List.Chain' sameStyleRel r.characters) ∧
    List.Chain' runBoundaryRel (groupIntoRuns chars) ∧
    (groupIntoRuns chars).map (fun r => r.runIndex) =
      List.range (groupIntoRuns chars).length := by
  cases chars with
  | nil => simp [groupIntoRuns]
  | cons c rest =>
    have hjoin := groupIntoRunsGo_join rest (mkRun 0 c) []
    have hwf := groupIntoRunsGo_wf rest (mkRun 0 c) []
      (by simp [mkRun]) (by simp [mkRun]) (by simp)
      (by simp) (by simp [mkRun])
      (by simp)
    refine ⟨?_, hwf.1, hwf.2.1, hwf.2.2⟩
    rw [groupIntoRuns, hjoin]
    simp [mkRun]

/-- The five-character C2 scenario: characters 1-3 red, 4-5 green, all on
one line. -/
def ex1 : CharLayout := { character := "a", x := 0, y := 10, color := "#FF0000FF" }

/-- Second red character. -/
def ex2 : CharLayout := { character := "b", x := 8, y := 10, color := "#FF0000FF" }

/-- Third red character. -/
def ex3 : CharLayout := { character := "c", x := 16, y := 10, color := "#FF0000FF" }

/-- Fourth character, green. -/
def ex4 : CharLayout := { character := "d", x := 24, y := 10, color := "#00FF00FF" }

/-- Fifth character, green. -/
def ex5 : CharLayout := { character := "e", x := 32, y := 10, color := "#00FF00FF" }

/-- C2 (amended): in full mode every line's characters are partitioned
into maximal runs — concatenating the runs restores the line, runs are
nonempty with code-fingerprint-equal adjacent characters, adjacent runs
differ at the boundary, and run indices count 0..N-1 — where the
fingerprint is family, size, weight, style, text color, background color
and the decoration sub-fields underline, overline, lineThrough, color and
style (decoration thickness excluded); the five-character line with
characters 1-3 in one fingerprint and 4-5 in another yields exactly the
two runs split between indices 3 and 4. -/
theorem full_mode_run_partition :
    (∀ (layouts : List CharLayout), ∀ line ∈ fullLines layouts,
      ((line.runs.map (fun r => r.characters)).flatten = line.characters ∧
       (∀ r ∈ line.runs,
         r.characters ≠ [] ∧ List.Chain' sameStyleRel r.characters) ∧
       List.Chain' runBoundaryRel line.runs ∧
       line.runs.map (fun r => r.runIndex) =
         List.range line.runs.length)) ∧
    (fullLines [ex1, ex2, ex3, ex4, ex5]).map
        (fun l => l.runs.map (fun r => r.characters)) =
      [[[ex1, ex2, ex3], [ex4, ex5]]] := by
  constructor
  · intro layouts line hline
    rcases List.mem_map.mp hline with ⟨l0, _, rfl⟩
    exact groupIntoRuns_wf l0.characters
  · rfl

/-- C2 witness: the concrete five-character split, via the theorem. -/
theorem full_mode_run_partition_witness :
    (fullLines [ex1, ex2, ex3, ex4, ex5]).map
        (fun l => l.runs.map (fun r => r.characters)) =
      [[[ex1, ex2, ex3], [ex4, ex5]]] :=
  full_mode_run_partition.2

/-- The style fingerprint as the claim words it: the code's compared
fields plus the decoration `thickness` sub-field. -/
def specStyleFingerprintEq (a b : CharLayout) : Bool :=
  isSameStyle a b && (a.textDecoration.thickness == b.textDecoration.thickness)

/-- A character with decoration thickness 1 (the default). -/
def thinChar : CharLayout := { x := 0, y := 10 }

/-- The same character shifted right with decoration thickness 3. -/
def thickChar : CharLayout := { x := 8, y := 10, textDecoration := { thickness := 3 } }

/-- C2 counterexample: two adjacent characters whose claimed fingerprint
(including decoration thickness) differs are nevertheless grouped into a
single full-mode run, because `isSameStyle` never compares `thickness`. -/
theorem run_thickness_counterexample :
    specStyleFingerprintEq thinChar thickChar = false ∧
    (fullLines [thinChar, thickChar]).map (fun l => l.runs.length) = [1] :=
  ⟨rfl, rfl⟩

/-! ### Claim C1: width fallback classification by Unicode range -/

/-- C1: for a cache-missed codepoint that the loaded primary face lacks
(and with the shaping library loading glyphs normally), the width lookup
classifies by range: a CJK ideograph (`U+4E00..U+9FFF`) is measured via
the chain `U+4E2D`, `'0'`, `' '` and only defaults to `fontSize / 2` when
none of those glyphs exists; a codepoint in the ASCII/CJK/fullwidth
punctuation blocks (`U+0020..U+002F` among them) returns `fontSize / 2`
directly with no fallback-glyph lookup; every other codepoint is measured
via the chain `'0'`, `' '` with the same default. -/
theorem fallback_classification (st : MultiFontManager)
    (cache : FontMetricsCache) (fontId : Int) (codepoint : Nat)
    (fontSize : Int) (entry : FontEntry) (face : Face)
    (hmiss : cache.lookupWidth fontId fontSize codepoint = none)
    (hfont : mapLookup fontId st.fonts = some entry)
    (hface : entry.face = some face)
    (hset : (st.setFontSize fontId fontSize).1 = true)
    (habsent : face.glyphIndex codepoint = 0)
    (hload : ∀ gi, face.loadOk fontSize gi = true) :
    ((0x4E00 ≤ codepoint ∧ codepoint ≤ 0x9FFF) →
      (st.getCharWidthWithFallback cache fontId codepoint fontSize).width =
        (if firstGlyphIndex face [0x4E2D, 48, 32] = 0 then fontSize.tdiv 2
         else measureGlyph face fontSize
           (firstGlyphIndex face [0x4E2D, 48, 32]))) ∧
    ((((0x3000 ≤ codepoint ∧ codepoint ≤ 0x303F) ∨
        (0xFF00 ≤ codepoint ∧ codepoint ≤ 0xFFEF)) ∨
      ((0x20 ≤ codepoint ∧ codepoint ≤ 0x2F) ∨
        (0x3A ≤ codepoint ∧ codepoint ≤ 0x40) ∨
        (0x5B ≤ codepoint ∧ codepoint ≤ 0x60) ∨
        (0x7B ≤ codepoint ∧ codepoint ≤ 0x7E))) →
      (st.getCharWidthWithFallback cache fontId codepoint fontSize).width =
        fontSize.tdiv 2) ∧
    (¬((0x4E00 ≤ codepoint ∧ codepoint ≤ 0x9FFF) ∨
        (0x3400 ≤ codepoint ∧ codepoint ≤ 0x4DBF) ∨
        (0x20000 ≤ codepoint ∧ codepoint ≤ 0x2A6DF)) →
      ¬(((0x3000 ≤ codepoint ∧ codepoint ≤ 0x303F) ∨
          (0xFF00 ≤ codepoint ∧ codepoint ≤ 0xFFEF)) ∨
        ((0x20 ≤ codepoint ∧ codepoint ≤ 0x2F) ∨
          (0x3A ≤ codepoint ∧ codepoint ≤ 0x40) ∨
          (0x5B ≤ codepoint ∧ codepoint ≤ 0x60) ∨
          (0x7B ≤ codepoint ∧ codepoint ≤ 0x7E))) →
      (st.getCharWidthWithFallback cache fontId codepoint fontSize).width =
        (if firstGlyphIndex face [48, 32] = 0 then fontSize.tdiv 2
         else measureGlyph face fontSize (firstGlyphIndex face [48, 32]))) := by
  have hget := lookupWidth_none_getCharWidth cache fontId fontSize codepoint
    hmiss
  have hneg : ¬((-1 : Int) ≥ 0) := by norm_num
  refine ⟨?_, ?_, ?_⟩
  · intro hrange
    have hcjk : (0x4E00 ≤ codepoint ∧ codepoint ≤ 0x9FFF) ∨
        (0x3400 ≤ codepoint ∧ codepoint ≤ 0x4DBF) ∨
        (0x20000 ≤ codepoint ∧ codepoint ≤ 0x2A6DF) := Or.inl hrange
    simp only [MultiFontManager.getCharWidthWithFallback, hget, hneg,
      if_false, hfont, hface, hset, habsent, if_pos hcjk]
    by_cases hg : firstGlyphIndex face [0x4E2D, 48, 32] = 0
    · simp [finishGlyph, hg]
    · simp [finishGlyph, hg, hload]
  · intro hrange
    have hnotcjk : ¬((0x4E00 ≤ codepoint ∧ codepoint ≤ 0x9FFF) ∨
        (0x3400 ≤ codepoint ∧ codepoint ≤ 0x4DBF) ∨
        (0x20000 ≤ codepoint ∧ codepoint ≤ 0x2A6DF)) := by omega
    simp only [MultiFontManager.getCharWidthWithFallback, hget, hneg,
      if_false, hfont, hface, hset, habsent, if_neg hnotcjk, if_pos hrange]
    simp
  · intro hnotcjk hnotpunct
    simp only [MultiFontManager.getCharWidthWithFallback, hget, hneg,
      if_false, hfont, hface, hset, habsent, if_neg hnotcjk,
      if_neg hnotpunct]
    by_cases hg : firstGlyphIndex face [48, 32] = 0
    · simp [finishGlyph, hg]
    · simp [finishGlyph, hg, hload]

/-- C1 witness: an absent CJK ideograph in the demo font (which has only
the digit glyph) is measured through the chain's `'0'` member. -/
theorem fallback_classification_witness :
    (demoMgr.getCharWidthWithFallback FontMetricsCache.initial 1 0x4E00
      16).width = 7 := by
  have h := fallback_classification demoMgr FontMetricsCache.initial 1
    0x4E00 16 demoEntry demoFace rfl rfl rfl rfl rfl (fun _ => rfl)
  have h1 := h.1 ⟨by norm_num, by norm_num⟩
  rw [h1]
  rfl

end HtmlLayoutParser
